import Mathlib

/-!
Shallow embedding of `supabase/functions/magento-sync/sync_progress.ts`
(the synchronization progress tracker of the sales-pulse dashboard).

Modelling conventions:
* Timestamps are integers counting milliseconds since the epoch
  (`new Date()` / ISO strings in the source).  All `new Date()` calls made
  during one function invocation are modelled by the single `now` argument.
* The supabase persistent store is modelled by a `DB` value: a table-existence
  flag, the list of `sync_progress` rows, the next row id the store will
  assign on insert, and a counter of `create_sync_progress_table` RPC
  invocations (so that "a provisioning attempt happened" is observable).
* Each storage round-trip of the source can fail; the error outcome of every
  individual call is supplied through an explicit error-flag structure
  (`GetErrs` / `UpdErrs`).  A `maybeSingle()` that would error (e.g. on
  multiple matching rows) is subsumed by the corresponding fetch-error flag.
* JS objects returned by `getSyncProgress` carry different field sets in
  different branches; absent fields are modelled as `false` / `none`.
-/

namespace SalesPulse

/-- One row of the `sync_progress` table, with the columns the source
reads or writes (`id`, `store_id`, `status`, `orders_processed`,
`total_orders`, `updated_at`, `started_at`, `connection_id`,
`current_page`, `notes`). -/
structure ProgressRecord where
  id : Nat
  store_id : String
  status : String
  orders_processed : Int
  total_orders : Int
  updated_at : Int
  started_at : Int
  connection_id : String
  current_page : Nat
  notes : Option String
deriving Repr, DecidableEq

/-- The persistent store as seen by the tracker. -/
structure DB where
  tableExists : Bool
  records : List ProgressRecord
  nextId : Nat
  provisionCalls : Nat
deriving Repr, DecidableEq

/-- JS `notes || null`: an absent or empty (falsy) string becomes null. -/
def jsOrNull (notes : Option String) : Option String :=
  match notes with
  | some s => if s == "" then none else some s
  | none => none

/-- Source line 91: `(now.getTime() - updatedAt.getTime()) / (1000 * 60)`,
the age of the record in minutes (exact rational division). -/
def diffMinutes (now updated_at : Int) : ℚ :=
  ((now - updated_at : Int) : ℚ) / (1000 * 60)

/-- Source line 93: the staleness test `diffMinutes > 15`. -/
def isStaleCheck (now updated_at : Int) : Bool :=
  decide (diffMinutes now updated_at > 15)

/-- Rows of the table belonging to one store (`.eq('store_id', storeId)`). -/
def recordsFor (storeId : String) (rs : List ProgressRecord) : List ProgressRecord :=
  rs.filter (fun r => r.store_id == storeId)

/-- One step of selecting the row with the greatest `updated_at`. -/
def pickLatest (acc : Option ProgressRecord) (r : ProgressRecord) : Option ProgressRecord :=
  match acc with
  | none => some r
  | some b => if r.updated_at > b.updated_at then some r else some b

/-- Source lines 62-68: `.order('updated_at', descending).limit(1).maybeSingle()`
restricted to the given store. -/
def latestFor (storeId : String) (rs : List ProgressRecord) : Option ProgressRecord :=
  (recordsFor storeId rs).foldl pickLatest none

/-- Source lines 97-104: the stale-reconciliation update — set `status`,
`updated_at` and `notes` on every row whose id matches. -/
def markFailed (now : Int) (rid : Nat) (rs : List ProgressRecord) : List ProgressRecord :=
  rs.map (fun r =>
    if r.id == rid then
      { r with status := "failed", updated_at := now,
               notes := some "Sync timed out after 15 minutes of inactivity" }
    else r)

/-- Error outcomes of the three storage calls `getSyncProgress` makes. -/
structure GetErrs where
  tableCheckErr : Bool
  fetchErr : Bool
  updateErr : Bool
deriving Repr, DecidableEq

/-- The error-free schedule for `getSyncProgress`. -/
def noGetErrs : GetErrs := ⟨false, false, false⟩

/-- The object `getSyncProgress` returns.  Fields a branch of the source
omits are `false` / `none` here. -/
structure GetStatusResult where
  success : Bool
  error : Option String
  inProgress : Bool
  isStale : Bool
  progress : Option ProgressRecord
  lastSync : Option ProgressRecord
deriving Repr, DecidableEq

/-- Source lines 35-128: `getSyncProgress(storeId)`.  Returns the result
object together with the store state after the call.  Note that the source
never invokes the provisioning RPC here, and never inspects the outcome of
the stale-marking update (line 97 `await` discards the response). -/
def getSyncProgress (storeId : String) (now : Int) (e : GetErrs) (db : DB) :
    GetStatusResult × DB :=
  if e.tableCheckErr then
    ({ success := false, error := some "Could not check if sync_progress table exists",
       inProgress := false, isStale := false, progress := none, lastSync := none }, db)
  else if !db.tableExists then
    ({ success := true, error := none, inProgress := false, isStale := false,
       progress := none, lastSync := none }, db)
  else if e.fetchErr then
    ({ success := false, error := some "Failed to fetch sync progress",
       inProgress := false, isStale := false, progress := none, lastSync := none }, db)
  else
    match latestFor storeId db.records with
    | none =>
        ({ success := true, error := none, inProgress := false, isStale := false,
           progress := none, lastSync := none }, db)
    | some data =>
        if (data.status == "in_progress") && isStaleCheck now data.updated_at then
          ({ success := true, error := none, inProgress := false, isStale := true,
             progress := none, lastSync := some data },
           if e.updateErr then db
           else { db with records := markFailed now data.id db.records })
        else
          ({ success := true, error := none, inProgress := (data.status == "in_progress"),
             isStale := false, progress := some data, lastSync := none }, db)

/-- Source line 172 filter: a row of this store that is still `in_progress`. -/
def isInProgressFor (storeId : String) (r : ProgressRecord) : Bool :=
  r.store_id == storeId && r.status == "in_progress"

/-- Source lines 168-173: fetch the existing `in_progress` row of the store. -/
def findInProgress (storeId : String) (rs : List ProgressRecord) : Option ProgressRecord :=
  rs.find? (isInProgressFor storeId)

/-- Number of `in_progress` rows a store has. -/
def countInProgress (storeId : String) (rs : List ProgressRecord) : Nat :=
  (rs.filter (isInProgressFor storeId)).length

/-- Source lines 180-187 and 191-194: the `progressData` patch applied to an
existing row (`started_at`, `connection_id`, `current_page` are untouched). -/
def applyProgress (storeId status : String) (current total : Int)
    (notes : Option String) (now : Int) (r : ProgressRecord) : ProgressRecord :=
  { r with store_id := storeId, status := status, orders_processed := current,
           total_orders := total, updated_at := now, notes := jsOrNull notes }

/-- Source lines 200-210: the freshly inserted row (`progressData` plus the
placeholder connection, `current_page = 1` and `started_at = now`). -/
def newProgressRecord (storeId status : String) (current total : Int)
    (notes : Option String) (now : Int) (rid : Nat) : ProgressRecord :=
  { id := rid, store_id := storeId, status := status, orders_processed := current,
    total_orders := total, updated_at := now, started_at := now,
    connection_id := "PLACEHOLDER", current_page := 1, notes := jsOrNull notes }

/-- Error outcomes of the storage calls `updateSyncProgress` makes. -/
structure UpdErrs where
  tableCheckErr : Bool
  createErr : Bool
  fetchErr : Bool
  updateErr : Bool
  insertErr : Bool
deriving Repr, DecidableEq

/-- The error-free schedule for `updateSyncProgress`. -/
def noUpdErrs : UpdErrs := ⟨false, false, false, false, false⟩

/-- Source lines 167-215: the part of `updateSyncProgress` after the
table-existence check — fetch the `in_progress` row, then update it in
place, or insert a brand-new row when none exists. -/
def updateSyncProgressBody (storeId status : String) (current total : Int)
    (notes : Option String) (now : Int) (e : UpdErrs) (db : DB) : DB :=
  if e.fetchErr then db
  else
    match findInProgress storeId db.records with
    | some existing =>
        if e.updateErr then db
        else
          { db with records := db.records.map (fun r =>
              if r.id == existing.id then
                applyProgress storeId status current total notes now r
              else r) }
    | none =>
        if e.insertErr then db
        else
          { db with
              records := db.records ++
                [newProgressRecord storeId status current total notes now db.nextId],
              nextId := db.nextId + 1 }

/-- Source lines 131-219: `updateSyncProgress(storeId, status, current, total,
notes?)`.  When the table check errors or finds the table absent (line 148),
the `create_sync_progress_table` RPC is invoked; a failed RPC aborts the call
before any write. -/
def updateSyncProgress (storeId status : String) (current total : Int)
    (notes : Option String) (now : Int) (e : UpdErrs) (db : DB) : DB :=
  if e.tableCheckErr || !db.tableExists then
    if e.createErr then
      { db with provisionCalls := db.provisionCalls + 1 }
    else
      updateSyncProgressBody storeId status current total notes now e
        { db with tableExists := true, provisionCalls := db.provisionCalls + 1 }
  else
    updateSyncProgressBody storeId status current total notes now e db

/-- The tracker's `start` operation as the sync driver realises it:
`updateSyncProgress` with status `in_progress` and zero counters (the
connection id is ignored by the source, which stores `PLACEHOLDER`). -/
def start (storeId : String) (now : Int) (e : UpdErrs) (db : DB) : DB :=
  updateSyncProgress storeId "in_progress" 0 0 none now e db

/-- The tracker's `report` operation: `updateSyncProgress` with status
`in_progress` and the reported counters. -/
def report (storeId : String) (current total : Int) (notes : Option String)
    (now : Int) (e : UpdErrs) (db : DB) : DB :=
  updateSyncProgress storeId "in_progress" current total notes now e db

/-- The tracker's `finish` operation: `updateSyncProgress` with a terminal
status (`completed` or `failed`). -/
def finish (storeId outcome : String) (current total : Int) (notes : Option String)
    (now : Int) (e : UpdErrs) (db : DB) : DB :=
  updateSyncProgress storeId outcome current total notes now e db

/-- A sequence of `start` calls on one store, each with its own timestamp and
error schedule. -/
def startSeq (storeId : String) (steps : List (Int × UpdErrs)) (db : DB) : DB :=
  steps.foldl (fun d s => start storeId s.1 s.2 d) db

/-- Every row id is below the id the store will assign next. -/
def idsFresh (db : DB) : Prop :=
  ∀ r ∈ db.records, r.id < db.nextId

/-- Row ids are pairwise distinct. -/
def idsNodup (db : DB) : Prop :=
  (db.records.map (fun r => r.id)).Nodup

instance (db : DB) : Decidable (idsFresh db) := by
  unfold idsFresh; infer_instance

instance (db : DB) : Decidable (idsNodup db) := by
  unfold idsNodup; infer_instance

/-! Concrete store states used by witnesses and counterexamples. -/

/-- An existing table holding no rows at all. -/
def dbEmpty : DB := { tableExists := true, records := [], nextId := 0, provisionCalls := 0 }

/-- A record already closed as `failed`. -/
def recFailed : ProgressRecord :=
  { id := 0, store_id := "store-1", status := "failed", orders_processed := 7,
    total_orders := 10, updated_at := 100, started_at := 50,
    connection_id := "conn-1", current_page := 1, notes := none }

/-- A store whose only record is the failed one. -/
def dbFailedRec : DB :=
  { tableExists := true, records := [recFailed], nextId := 1, provisionCalls := 0 }

/-- A record already closed as `completed`. -/
def recCompleted : ProgressRecord :=
  { id := 0, store_id := "store-2", status := "completed", orders_processed := 200,
    total_orders := 200, updated_at := 100, started_at := 0,
    connection_id := "conn-2", current_page := 1, notes := none }

/-- A store whose only record is the completed one. -/
def dbCompletedRec : DB :=
  { tableExists := true, records := [recCompleted], nextId := 1, provisionCalls := 0 }

/-- A record still `in_progress`, last updated at time 0. -/
def recRunning : ProgressRecord :=
  { id := 0, store_id := "store-3", status := "in_progress", orders_processed := 40,
    total_orders := 100, updated_at := 0, started_at := 0,
    connection_id := "conn-3", current_page := 1, notes := none }

/-- A store whose only record is the running one. -/
def dbRunning : DB :=
  { tableExists := true, records := [recRunning], nextId := 1, provisionCalls := 0 }

/-! Helper lemmas about the fetch and write primitives. -/

theorem foldl_pickLatest_mem :
    ∀ (l : List ProgressRecord) (acc : Option ProgressRecord) (b : ProgressRecord),
      l.foldl pickLatest acc = some b → b ∈ l ∨ acc = some b := by
  intro l
  induction l with
  | nil => intro acc b h; exact Or.inr h
  | cons a t ih =>
    intro acc b h
    rcases ih (pickLatest acc a) b h with hmem | hacc
    · exact Or.inl (List.mem_cons_of_mem a hmem)
    · cases acc with
      | none =>
        have h2 : a = b := by simpa [pickLatest] using hacc
        subst h2
        exact Or.inl (List.mem_cons_self a t)
      | some c =>
        simp only [pickLatest] at hacc
        split at hacc
        · have h2 : a = b := by simpa using hacc
          subst h2
          exact Or.inl (List.mem_cons_self a t)
        · exact Or.inr hacc

/-- The row returned by the latest-record fetch belongs to the table. -/
theorem latestFor_mem {storeId : String} {rs : List ProgressRecord} {r : ProgressRecord}
    (h : latestFor storeId rs = some r) : r ∈ rs := by
  rcases foldl_pickLatest_mem (recordsFor storeId rs) none r h with hmem | hacc
  · exact List.mem_of_mem_filter hmem
  · cases hacc

/-- Applying a pointwise transformation that does not change whether the
predicate holds leaves the count of matching rows unchanged. -/
theorem filter_length_map_of_pred_eq {α : Type} (p : α → Bool) (g : α → α) :
    ∀ l : List α, (∀ x ∈ l, p (g x) = p x) →
      ((l.map g).filter p).length = (l.filter p).length
  | [], _ => rfl
  | a :: t, h => by
    have ha := h a (List.mem_cons_self a t)
    have ih := filter_length_map_of_pred_eq p g t
      (fun x hx => h x (List.mem_cons_of_mem a hx))
    simp only [List.map_cons, List.filter_cons, ha]
    cases hpa : p a
    · simpa using ih
    · simpa using ih

/-- The in-place patch and the stale-marking both keep row ids. -/
theorem patch_id_eq (storeId status : String) (current total : Int)
    (notes : Option String) (now : Int) (rid : Nat) (x : ProgressRecord) :
    ((if x.id == rid then applyProgress storeId status current total notes now x
      else x).id) = x.id := by
  split <;> rfl

/-- The error-free insert branch of `updateSyncProgress`: when no
`in_progress` row exists for the store, the call appends one fresh row. -/
theorem updateSyncProgress_insert (storeId status : String) (current total : Int)
    (notes : Option String) (now : Int) (db : DB)
    (htable : db.tableExists = true)
    (hnone : findInProgress storeId db.records = none) :
    updateSyncProgress storeId status current total notes now noUpdErrs db =
      { db with
          records := db.records ++
            [newProgressRecord storeId status current total notes now db.nextId],
          nextId := db.nextId + 1 } := by
  simp [updateSyncProgress, updateSyncProgressBody, noUpdErrs, htable, hnone]

/-- The error-free update branch of `updateSyncProgress`: when an
`in_progress` row exists for the store, the call patches it in place. -/
theorem updateSyncProgress_patch (storeId status : String) (current total : Int)
    (notes : Option String) (now : Int) (db : DB) (ex : ProgressRecord)
    (htable : db.tableExists = true)
    (hex : findInProgress storeId db.records = some ex) :
    updateSyncProgress storeId status current total notes now noUpdErrs db =
      { db with records := db.records.map (fun r =>
          if r.id == ex.id then applyProgress storeId status current total notes now r
          else r) } := by
  simp [updateSyncProgress, updateSyncProgressBody, noUpdErrs, htable, hex]

/-- Case analysis of the post-provisioning part of `updateSyncProgress`:
either nothing was written (an error occurred), or the store's
`in_progress` row was patched in place, or a fresh row was appended. -/
theorem updateSyncProgressBody_shape (storeId status : String) (current total : Int)
    (notes : Option String) (now : Int) (e : UpdErrs) (db : DB) :
    updateSyncProgressBody storeId status current total notes now e db = db ∨
    (∃ ex, findInProgress storeId db.records = some ex ∧
      updateSyncProgressBody storeId status current total notes now e db =
        { db with records := db.records.map (fun r =>
            if r.id == ex.id then applyProgress storeId status current total notes now r
            else r) }) ∨
    (findInProgress storeId db.records = none ∧
      updateSyncProgressBody storeId status current total notes now e db =
        { db with
            records := db.records ++
              [newProgressRecord storeId status current total notes now db.nextId],
            nextId := db.nextId + 1 }) := by
  unfold updateSyncProgressBody
  split
  · exact Or.inl rfl
  · split
    next ex heq =>
      split
      · exact Or.inl rfl
      · exact Or.inr (Or.inl ⟨ex, heq, rfl⟩)
    next heq =>
      split
      · exact Or.inl rfl
      · exact Or.inr (Or.inr ⟨heq, rfl⟩)

/-- Case analysis of a whole `updateSyncProgress` call, in terms of the rows
and the next row id (the provisioning counter is dealt with separately). -/
theorem updateSyncProgress_shape (storeId status : String) (current total : Int)
    (notes : Option String) (now : Int) (e : UpdErrs) (db : DB) :
    ((updateSyncProgress storeId status current total notes now e db).records = db.records ∧
     (updateSyncProgress storeId status current total notes now e db).nextId = db.nextId) ∨
    (∃ ex, findInProgress storeId db.records = some ex ∧
      (updateSyncProgress storeId status current total notes now e db).records =
        db.records.map (fun r =>
          if r.id == ex.id then applyProgress storeId status current total notes now r
          else r) ∧
      (updateSyncProgress storeId status current total notes now e db).nextId
        = db.nextId) ∨
    (findInProgress storeId db.records = none ∧
      (updateSyncProgress storeId status current total notes now e db).records =
        db.records ++
          [newProgressRecord storeId status current total notes now db.nextId] ∧
      (updateSyncProgress storeId status current total notes now e db).nextId
        = db.nextId + 1) := by
  unfold updateSyncProgress
  split
  · split
    · exact Or.inl ⟨rfl, rfl⟩
    · rcases updateSyncProgressBody_shape storeId status current total notes now e
        { db with tableExists := true, provisionCalls := db.provisionCalls + 1 } with
        h | ⟨ex, hfind, h⟩ | ⟨hfind, h⟩
      · rw [h]; exact Or.inl ⟨rfl, rfl⟩
      · rw [h]; exact Or.inr (Or.inl ⟨ex, hfind, rfl, rfl⟩)
      · rw [h]; exact Or.inr (Or.inr ⟨hfind, rfl, rfl⟩)
  · rcases updateSyncProgressBody_shape storeId status current total notes now e db with
      h | ⟨ex, hfind, h⟩ | ⟨hfind, h⟩
    · rw [h]; exact Or.inl ⟨rfl, rfl⟩
    · rw [h]; exact Or.inr (Or.inl ⟨ex, hfind, rfl, rfl⟩)
    · rw [h]; exact Or.inr (Or.inr ⟨hfind, rfl, rfl⟩)

/-- The post-provisioning part never touches the provisioning counter. -/
theorem updateSyncProgressBody_provisionCalls (storeId status : String)
    (current total : Int) (notes : Option String) (now : Int) (e : UpdErrs) (db : DB) :
    (updateSyncProgressBody storeId status current total notes now e db).provisionCalls
      = db.provisionCalls := by
  rcases updateSyncProgressBody_shape storeId status current total notes now e db with
    h | ⟨ex, _, h⟩ | ⟨_, h⟩ <;> rw [h]

/-- Case analysis of the store state `getSyncProgress` leaves behind:
unchanged, or with one row marked failed by the stale reconciliation. -/
theorem getSyncProgress_shape (storeId : String) (now : Int) (e : GetErrs) (db : DB) :
    (getSyncProgress storeId now e db).2 = db ∨
    ∃ rid, (getSyncProgress storeId now e db).2 =
      { db with records := markFailed now rid db.records } := by
  unfold getSyncProgress
  split
  · exact Or.inl rfl
  · split
    · exact Or.inl rfl
    · split
      · exact Or.inl rfl
      · split
        · exact Or.inl rfl
        next data heq =>
          split
          · cases hu : e.updateErr
            · exact Or.inr ⟨data.id, by simp [hu]⟩
            · exact Or.inl (by simp [hu])
          · exact Or.inl rfl

/-! The claims. -/

/-- The staleness test, restated over millisecond differences. -/
theorem isStaleCheck_iff (now u : Int) :
    isStaleCheck now u = true ↔ now - u > 900000 := by
  unfold isStaleCheck diffMinutes
  rw [decide_eq_true_iff, gt_iff_lt, lt_div_iff₀ (by norm_num : (0 : ℚ) < 1000 * 60)]
  rw [show (15 : ℚ) * (1000 * 60) = ((900000 : Int) : ℚ) by norm_num]
  rw [Int.cast_lt]

/-- C5: a record is judged stale iff `now - updatedAt` strictly exceeds
15 minutes (900000 ms); the check is false at exactly 900 s and true at
900 s + 1 ms. -/
theorem C5_staleness_boundary :
    (∀ now updated_at : Int,
        (isStaleCheck now updated_at = true ↔ now - updated_at > 900000)) ∧
    isStaleCheck 900000 0 = false ∧ isStaleCheck 900001 0 = true := by
  refine ⟨isStaleCheck_iff, ?_, (isStaleCheck_iff 900001 0).mpr (by omega)⟩
  cases h : isStaleCheck 900000 0
  · rfl
  · exact absurd ((isStaleCheck_iff 900000 0).mp h) (by omega)

/-- C7: a failed storage read in `getSyncProgress` yields `success = false`
and `inProgress = false` (both for the table-existence check and for the
record fetch), and a store with no progress record yields
`inProgress = false`. -/
theorem C7_getStatus_error_surfacing :
    (∀ (storeId : String) (now : Int) (e : GetErrs) (db : DB),
        e.tableCheckErr = true →
        (getSyncProgress storeId now e db).1.success = false ∧
        (getSyncProgress storeId now e db).1.inProgress = false) ∧
    (∀ (storeId : String) (now : Int) (e : GetErrs) (db : DB),
        e.tableCheckErr = false → db.tableExists = true → e.fetchErr = true →
        (getSyncProgress storeId now e db).1.success = false ∧
        (getSyncProgress storeId now e db).1.inProgress = false) ∧
    (∀ (storeId : String) (now : Int) (e : GetErrs) (db : DB),
        e.tableCheckErr = false → e.fetchErr = false →
        latestFor storeId db.records = none →
        (getSyncProgress storeId now e db).1.inProgress = false) := by
  refine ⟨fun storeId now e db h => ?_, fun storeId now e db h1 h2 h3 => ?_,
    fun storeId now e db h1 h2 h3 => ?_⟩
  · simp [getSyncProgress, h]
  · simp [getSyncProgress, h1, h2, h3]
  · cases ht : db.tableExists
    · simp [getSyncProgress, h1, ht]
    · simp [getSyncProgress, h1, h2, h3, ht]

/-- Witness for C7 at concrete inputs. -/
theorem C7_getStatus_error_surfacing_witness :
    ((getSyncProgress "s" 0 ⟨true, false, false⟩ dbEmpty).1.success = false ∧
     (getSyncProgress "s" 0 ⟨true, false, false⟩ dbEmpty).1.inProgress = false) ∧
    ((getSyncProgress "s" 0 ⟨false, true, false⟩ dbEmpty).1.success = false ∧
     (getSyncProgress "s" 0 ⟨false, true, false⟩ dbEmpty).1.inProgress = false) ∧
    (getSyncProgress "s" 0 noGetErrs dbEmpty).1.inProgress = false :=
  ⟨C7_getStatus_error_surfacing.1 "s" 0 ⟨true, false, false⟩ dbEmpty rfl,
   C7_getStatus_error_surfacing.2.1 "s" 0 ⟨false, true, false⟩ dbEmpty rfl rfl rfl,
   C7_getStatus_error_surfacing.2.2 "s" 0 noGetErrs dbEmpty rfl rfl rfl⟩

/-- C6: an error-free `start` on a store with no active record inserts a
single new record with zero counters, status `in_progress`, and
`started_at = updated_at = now`. -/
theorem C6_start_creates_record (storeId : String) (now : Int) (db : DB)
    (htable : db.tableExists = true)
    (hnone : findInProgress storeId db.records = none) :
    (start storeId now noUpdErrs db).records =
      db.records ++ [newProgressRecord storeId "in_progress" 0 0 none now db.nextId] ∧
    (newProgressRecord storeId "in_progress" 0 0 none now db.nextId).status
      = "in_progress" ∧
    (newProgressRecord storeId "in_progress" 0 0 none now db.nextId).orders_processed
      = 0 ∧
    (newProgressRecord storeId "in_progress" 0 0 none now db.nextId).total_orders
      = 0 ∧
    (newProgressRecord storeId "in_progress" 0 0 none now db.nextId).started_at
      = now ∧
    (newProgressRecord storeId "in_progress" 0 0 none now db.nextId).updated_at
      = now := by
  refine ⟨?_, rfl, rfl, rfl, rfl, rfl⟩
  rw [start, updateSyncProgress_insert storeId "in_progress" 0 0 none now db htable hnone]

/-- Witness for C6 at a concrete input. -/
theorem C6_start_creates_record_witness :
    (start "store-1" 5 noUpdErrs dbEmpty).records =
      dbEmpty.records ++ [newProgressRecord "store-1" "in_progress" 0 0 none 5 dbEmpty.nextId] ∧
    (newProgressRecord "store-1" "in_progress" 0 0 none 5 dbEmpty.nextId).status
      = "in_progress" ∧
    (newProgressRecord "store-1" "in_progress" 0 0 none 5 dbEmpty.nextId).orders_processed
      = 0 ∧
    (newProgressRecord "store-1" "in_progress" 0 0 none 5 dbEmpty.nextId).total_orders
      = 0 ∧
    (newProgressRecord "store-1" "in_progress" 0 0 none 5 dbEmpty.nextId).started_at
      = 5 ∧
    (newProgressRecord "store-1" "in_progress" 0 0 none 5 dbEmpty.nextId).updated_at
      = 5 :=
  C6_start_creates_record "store-1" 5 dbEmpty rfl rfl

/-- C4 counterexample: a `report` whose target store has no `in_progress`
record (only an already-failed one) is NOT a no-op — it inserts a second
record into the store. -/
theorem C4_stale_write_counterexample :
    dbFailedRec.records.length = 1 ∧
    (report "store-1" 8 10 none 200 noUpdErrs dbFailedRec).records.length = 2 := by
  decide

/-- C4 (amended): a `report` targeting a store with no `in_progress` record
raises no error and leaves every existing record unchanged, but instead of
being a no-op it inserts a fresh record carrying the reported counters. -/
theorem C4_stale_write_inserts (storeId : String) (current total : Int)
    (notes : Option String) (now : Int) (db : DB)
    (htable : db.tableExists = true)
    (hnone : findInProgress storeId db.records = none) :
    (report storeId current total notes now noUpdErrs db).records =
      db.records ++
        [newProgressRecord storeId "in_progress" current total notes now db.nextId] := by
  rw [report, updateSyncProgress_insert storeId "in_progress" current total notes now db
    htable hnone]

/-- Witness for the amended C4 at a concrete input. -/
theorem C4_stale_write_inserts_witness :
    (report "store-1" 8 10 none 200 noUpdErrs dbFailedRec).records =
      dbFailedRec.records ++
        [newProgressRecord "store-1" "in_progress" 8 10 none 200 dbFailedRec.nextId] :=
  C4_stale_write_inserts "store-1" 8 10 none 200 dbFailedRec rfl rfl

/-- C1: when the most recently updated record of the store is `in_progress`
and stale, an error-free `getSyncProgress` marks it `failed` with the
timeout note and returns `success = true`, `inProgress = false` and the
stale flag set. -/
theorem C1_self_healing_read (storeId : String) (now : Int) (db : DB) (r : ProgressRecord)
    (htable : db.tableExists = true)
    (hfetch : latestFor storeId db.records = some r)
    (hip : r.status = "in_progress")
    (hstale : isStaleCheck now r.updated_at = true) :
    (getSyncProgress storeId now noGetErrs db).1.success = true ∧
    (getSyncProgress storeId now noGetErrs db).1.inProgress = false ∧
    (getSyncProgress storeId now noGetErrs db).1.isStale = true ∧
    (getSyncProgress storeId now noGetErrs db).2.records
      = markFailed now r.id db.records ∧
    { r with status := "failed", updated_at := now,
             notes := some "Sync timed out after 15 minutes of inactivity" }
      ∈ (getSyncProgress storeId now noGetErrs db).2.records := by
  have hmem : r ∈ db.records := latestFor_mem hfetch
  have hg : getSyncProgress storeId now noGetErrs db =
      ({ success := true, error := none, inProgress := false, isStale := true,
         progress := none, lastSync := some r },
       { db with records := markFailed now r.id db.records }) := by
    simp [getSyncProgress, noGetErrs, htable, hfetch, hip, hstale]
  rw [hg]
  refine ⟨rfl, rfl, rfl, rfl, ?_⟩
  have hmm := List.mem_map_of_mem (fun x : ProgressRecord =>
      if x.id == r.id then
        { x with status := "failed", updated_at := now,
                 notes := some "Sync timed out after 15 minutes of inactivity" }
      else x) hmem
  simpa [markFailed] using hmm

/-- Witness for C1 at a concrete stale store state. -/
theorem C1_self_healing_read_witness :
    (getSyncProgress "store-3" 1000000 noGetErrs dbRunning).1.success = true ∧
    (getSyncProgress "store-3" 1000000 noGetErrs dbRunning).1.inProgress = false ∧
    (getSyncProgress "store-3" 1000000 noGetErrs dbRunning).1.isStale = true ∧
    (getSyncProgress "store-3" 1000000 noGetErrs dbRunning).2.records
      = markFailed 1000000 recRunning.id dbRunning.records ∧
    { recRunning with status := "failed", updated_at := 1000000,
                      notes := some "Sync timed out after 15 minutes of inactivity" }
      ∈ (getSyncProgress "store-3" 1000000 noGetErrs dbRunning).2.records :=
  C1_self_healing_read "store-3" 1000000 dbRunning recRunning rfl rfl rfl
    ((isStaleCheck_iff 1000000 0).mpr (by omega))

/-- C10: when the fetched record is `in_progress` and stale, the result of
`getSyncProgress` is the same for every outcome of the failed-marking
update (the source discards that outcome): `success = true`, the stale flag
set, and `lastSync` holding the record as read, still `in_progress`; when
the update errors the store is left unchanged. -/
theorem C10_stale_result_ignores_write (storeId : String) (now : Int) (uErr : Bool)
    (db : DB) (r : ProgressRecord)
    (htable : db.tableExists = true)
    (hfetch : latestFor storeId db.records = some r)
    (hip : r.status = "in_progress")
    (hstale : isStaleCheck now r.updated_at = true) :
    (getSyncProgress storeId now ⟨false, false, uErr⟩ db).1.success = true ∧
    (getSyncProgress storeId now ⟨false, false, uErr⟩ db).1.inProgress = false ∧
    (getSyncProgress storeId now ⟨false, false, uErr⟩ db).1.isStale = true ∧
    (getSyncProgress storeId now ⟨false, false, uErr⟩ db).1.lastSync = some r ∧
    r.status = "in_progress" ∧
    (uErr = true → (getSyncProgress storeId now ⟨false, false, uErr⟩ db).2 = db) := by
  have hg : getSyncProgress storeId now ⟨false, false, uErr⟩ db =
      ({ success := true, error := none, inProgress := false, isStale := true,
         progress := none, lastSync := some r },
       if uErr then db else { db with records := markFailed now r.id db.records }) := by
    simp [getSyncProgress, htable, hfetch, hip, hstale]
  rw [hg]
  exact ⟨rfl, rfl, rfl, rfl, hip, fun hu => by simp [hu]⟩

/-- Witness for C10 at a concrete stale store state with a failing update. -/
theorem C10_stale_result_ignores_write_witness :
    (getSyncProgress "store-3" 1000000 ⟨false, false, true⟩ dbRunning).1.success = true ∧
    (getSyncProgress "store-3" 1000000 ⟨false, false, true⟩ dbRunning).1.inProgress = false ∧
    (getSyncProgress "store-3" 1000000 ⟨false, false, true⟩ dbRunning).1.isStale = true ∧
    (getSyncProgress "store-3" 1000000 ⟨false, false, true⟩ dbRunning).1.lastSync
      = some recRunning ∧
    recRunning.status = "in_progress" ∧
    (true = true →
      (getSyncProgress "store-3" 1000000 ⟨false, false, true⟩ dbRunning).2 = dbRunning) :=
  C10_stale_result_ignores_write "store-3" 1000000 true dbRunning recRunning rfl rfl rfl
    ((isStaleCheck_iff 1000000 0).mpr (by omega))

/-- C2 counterexample: once the store's only record is terminal
(`completed`), a further `finish` call is NOT a no-op — it inserts a second
record. -/
theorem C2_terminal_counterexample :
    dbCompletedRec.records.length = 1 ∧
    (finish "store-2" "completed" 200 200 none 300 noUpdErrs dbCompletedRec).records.length
      = 2 := by
  decide

/-- C2 (amended): a record whose status is terminal (`completed` or
`failed`) is never mutated by any later `report`/`finish` call — it
survives every `updateSyncProgress` with all fields intact, and stays the
only record bearing its id; such calls are however not no-ops, as they may
insert a new record. -/
theorem C2_terminal_record_preserved (storeId status : String) (current total : Int)
    (notes : Option String) (now : Int) (e : UpdErrs) (db : DB) (r : ProgressRecord)
    (hf : idsFresh db) (hn : idsNodup db) (hr : r ∈ db.records)
    (hterm : r.status = "completed" ∨ r.status = "failed") :
    r ∈ (updateSyncProgress storeId status current total notes now e db).records ∧
    ∀ r' ∈ (updateSyncProgress storeId status current total notes now e db).records,
      r'.id = r.id → r' = r := by
  have hinj := List.inj_on_of_nodup_map hn
  rcases updateSyncProgress_shape storeId status current total notes now e db with
    ⟨hrec, _⟩ | ⟨ex, hfind, hrec, _⟩ | ⟨hfind, hrec, hnext⟩
  · rw [hrec]
    exact ⟨hr, fun r' hr' hid => hinj hr' hr hid⟩
  · have hexmem : ex ∈ db.records := List.mem_of_find?_eq_some hfind
    have hexp : isInProgressFor storeId ex = true := List.find?_some hfind
    have hexst : ex.status = "in_progress" := by
      unfold isInProgressFor at hexp
      exact eq_of_beq ((Bool.and_eq_true _ _ ▸ hexp).2)
    have hne : r.id ≠ ex.id := by
      intro hid
      have hrex : r = ex := hinj hr hexmem hid
      rcases hterm with h | h <;> rw [hrex, hexst] at h <;> exact absurd h (by decide)
    have hif : (r.id == ex.id) = false := beq_eq_false_iff_ne.mpr hne
    have hgr : (fun x : ProgressRecord =>
        if x.id == ex.id then applyProgress storeId status current total notes now x
        else x) r = r := by
      simp [hif]
    constructor
    · rw [hrec]
      have hmm := List.mem_map_of_mem (fun x : ProgressRecord =>
        if x.id == ex.id then applyProgress storeId status current total notes now x
        else x) hr
      rw [hgr] at hmm
      exact hmm
    · rw [hrec]
      intro r' hr' hid
      rcases List.mem_map.mp hr' with ⟨x, hx, hgx⟩
      have hxid : x.id = r.id := by
        rw [← hid, ← hgx]
        by_cases hx2 : (x.id == ex.id) = true <;> simp [hx2, applyProgress]
      have hxr : x = r := hinj hx hr hxid
      rw [← hgx, hxr]
      exact hgr
  · rw [hrec]
    constructor
    · exact List.mem_append.mpr (Or.inl hr)
    · intro r' hr' hid
      rcases List.mem_append.mp hr' with h | h
      · exact hinj h hr hid
      · exfalso
        have hsing := List.mem_singleton.mp h
        have hidr : r'.id = db.nextId := by rw [hsing]; rfl
        have hlt := hf r hr
        omega

/-- Witness for the amended C2 at a concrete input. -/
theorem C2_terminal_record_preserved_witness :
    recCompleted ∈
      (updateSyncProgress "store-2" "in_progress" 10 20 none 500 noUpdErrs
        dbCompletedRec).records ∧
    ∀ r' ∈ (updateSyncProgress "store-2" "in_progress" 10 20 none 500 noUpdErrs
        dbCompletedRec).records,
      r'.id = recCompleted.id → r' = recCompleted :=
  C2_terminal_record_preserved "store-2" "in_progress" 10 20 none 500 noUpdErrs
    dbCompletedRec recCompleted (by decide) (by decide) (by decide) (Or.inl rfl)

/-- A single error-free or erroring `start` keeps id freshness, id
distinctness, and the at-most-one-active-record bound. -/
theorem start_step_inv (storeId : String) (now : Int) (e : UpdErrs) (db : DB)
    (h : idsFresh db ∧ idsNodup db ∧ countInProgress storeId db.records ≤ 1) :
    idsFresh (start storeId now e db) ∧ idsNodup (start storeId now e db) ∧
      countInProgress storeId (start storeId now e db).records ≤ 1 := by
  obtain ⟨hf, hn, hc⟩ := h
  have hinj := List.inj_on_of_nodup_map hn
  unfold start idsFresh idsNodup
  rcases updateSyncProgress_shape storeId "in_progress" 0 0 none now e db with
    ⟨hrec, hnext⟩ | ⟨ex, hfind, hrec, hnext⟩ | ⟨hfind, hrec, hnext⟩
  · rw [hrec, hnext]
    exact ⟨hf, hn, hc⟩
  · rw [hrec, hnext]
    have hexmem : ex ∈ db.records := List.mem_of_find?_eq_some hfind
    have hexp : isInProgressFor storeId ex = true := List.find?_some hfind
    refine ⟨?_, ?_, ?_⟩
    · intro r hrm
      rcases List.mem_map.mp hrm with ⟨x, hx, hgx⟩
      have : r.id = x.id := by
        rw [← hgx]
        exact patch_id_eq storeId "in_progress" 0 0 none now ex.id x
      rw [this]
      exact hf x hx
    · rw [List.map_map]
      have : db.records.map ((fun r : ProgressRecord => r.id) ∘ (fun r =>
          if r.id == ex.id then applyProgress storeId "in_progress" 0 0 none now r
          else r)) = db.records.map (fun r => r.id) := by
        apply List.map_congr_left
        intro a _
        exact patch_id_eq storeId "in_progress" 0 0 none now ex.id a
      rw [this]
      exact hn
    · unfold countInProgress
      rw [filter_length_map_of_pred_eq (isInProgressFor storeId) _ db.records ?_]
      · exact hc
      · intro x hx
        by_cases hx2 : (x.id == ex.id) = true
        · have hxex : x = ex := hinj hx hexmem (eq_of_beq hx2)
          rw [hxex]
          simp only [beq_self_eq_true, if_true]
          rw [hexp]
          unfold isInProgressFor applyProgress
          simp
        · simp [hx2]
  · rw [hrec, hnext]
    have hnone : ∀ x ∈ db.records, ¬(isInProgressFor storeId x = true) :=
      List.find?_eq_none.mp hfind
    refine ⟨?_, ?_, ?_⟩
    · intro r hrm
      rcases List.mem_append.mp hrm with hmem | hmem
      · have := hf r hmem; omega
      · rw [List.mem_singleton.mp hmem]
        exact Nat.lt_succ_self db.nextId
    · rw [List.map_append, List.nodup_append]
      refine ⟨hn, List.nodup_singleton _, ?_⟩
      intro a ha hb
      rcases List.mem_map.mp ha with ⟨x, hx, hxa⟩
      have hlt := hf x hx
      have : a = db.nextId := by
        simpa [newProgressRecord] using hb
      omega
    · unfold countInProgress
      rw [List.filter_append]
      have hempty : db.records.filter (isInProgressFor storeId) = [] :=
        List.filter_eq_nil_iff.mpr hnone
      rw [hempty]
      simpa using List.length_filter_le (isInProgressFor storeId)
        [newProgressRecord storeId "in_progress" 0 0 none now db.nextId]

/-- The step invariant extends to any sequence of `start` calls. -/
theorem startSeq_inv (storeId : String) (steps : List (Int × UpdErrs)) :
    ∀ db : DB, idsFresh db ∧ idsNodup db ∧ countInProgress storeId db.records ≤ 1 →
      idsFresh (startSeq storeId steps db) ∧ idsNodup (startSeq storeId steps db) ∧
        countInProgress storeId (startSeq storeId steps db).records ≤ 1 := by
  induction steps with
  | nil => intro db h; exact h
  | cons s t ih =>
    intro db h
    exact ih (start storeId s.1 s.2 db) (start_step_inv storeId s.1 s.2 db h)

/-- C3 counterexample: two successive `start` calls on the same store leave
a single record, but the second call does not leave the first record
unchanged — it rewrites its `updated_at` (from 0 to 60000 here). -/
theorem C3_second_start_counterexample :
    (startSeq "store-1" [(0, noUpdErrs)] dbEmpty).records.map
      (fun r => r.updated_at) = [0] ∧
    (startSeq "store-1" [(0, noUpdErrs), (60000, noUpdErrs)] dbEmpty).records.map
      (fun r => r.updated_at) = [60000] := by
  decide

/-- C3 (amended): for every sequence of `start` calls on the same store
(starting from distinct fresh ids and at most one active record), at most
one `in_progress` record ever exists, and a second `start` while one is
active inserts nothing — but instead of returning the first record
unchanged it patches it in place, resetting its counters and refreshing
`updated_at`. -/
theorem C3_at_most_one_active (storeId : String) (steps : List (Int × UpdErrs)) (db : DB)
    (hf : idsFresh db) (hn : idsNodup db)
    (hc : countInProgress storeId db.records ≤ 1) :
    countInProgress storeId (startSeq storeId steps db).records ≤ 1 ∧
    ∀ (now : Int) (ex : ProgressRecord), db.tableExists = true →
      findInProgress storeId db.records = some ex →
      (start storeId now noUpdErrs db).records =
        db.records.map (fun r =>
          if r.id == ex.id then applyProgress storeId "in_progress" 0 0 none now r
          else r) := by
  refine ⟨(startSeq_inv storeId steps db ⟨hf, hn, hc⟩).2.2, ?_⟩
  intro now ex htable hfind
  rw [start, updateSyncProgress_patch storeId "in_progress" 0 0 none now db ex htable hfind]

/-- Witness for the amended C3 at a concrete input. -/
theorem C3_at_most_one_active_witness :
    countInProgress "store-3"
      (startSeq "store-3" [(1000, noUpdErrs)] dbRunning).records ≤ 1 ∧
    ∀ (now : Int) (ex : ProgressRecord), dbRunning.tableExists = true →
      findInProgress "store-3" dbRunning.records = some ex →
      (start "store-3" now noUpdErrs dbRunning).records =
        dbRunning.records.map (fun r =>
          if r.id == ex.id then applyProgress "store-3" "in_progress" 0 0 none now r
          else r) :=
  C3_at_most_one_active "store-3" [(1000, noUpdErrs)] dbRunning
    (by decide) (by decide) (by decide)

/-- C9: assuming every stored record satisfies `started_at ≤ updated_at`
and was started no later than the present call (monotone clock), every
record left behind by `updateSyncProgress` or by `getSyncProgress` (with
its stale reconciliation) again satisfies `updated_at ≥ started_at`. -/
theorem C9_updated_at_ge_started_at (storeId status : String) (current total : Int)
    (notes : Option String) (now : Int) (eu : UpdErrs) (eg : GetErrs) (db : DB)
    (hinv : ∀ r ∈ db.records, r.started_at ≤ r.updated_at)
    (hbound : ∀ r ∈ db.records, r.started_at ≤ now) :
    (∀ r ∈ (updateSyncProgress storeId status current total notes now eu db).records,
        r.started_at ≤ r.updated_at) ∧
    (∀ r ∈ ((getSyncProgress storeId now eg db).2).records,
        r.started_at ≤ r.updated_at) := by
  constructor
  · rcases updateSyncProgress_shape storeId status current total notes now eu db with
      ⟨hrec, _⟩ | ⟨ex, hfind, hrec, _⟩ | ⟨hfind, hrec, _⟩
    · rw [hrec]; exact hinv
    · rw [hrec]
      intro r hrm
      rcases List.mem_map.mp hrm with ⟨x, hx, hgx⟩
      rw [← hgx]
      by_cases hx2 : (x.id == ex.id) = true
      · simp only [hx2, if_true]
        unfold applyProgress
        simpa using hbound x hx
      · simp only [Bool.not_eq_true] at hx2
        simp only [hx2, Bool.false_eq_true, if_false]
        exact hinv x hx
    · rw [hrec]
      intro r hrm
      rcases List.mem_append.mp hrm with hmem | hmem
      · exact hinv r hmem
      · rw [List.mem_singleton.mp hmem]
        exact le_refl now
  · rcases getSyncProgress_shape storeId now eg db with h | ⟨rid, h⟩
    · rw [h]; exact hinv
    · rw [h]
      intro r hrm
      simp only [markFailed] at hrm
      rcases List.mem_map.mp hrm with ⟨x, hx, hgx⟩
      rw [← hgx]
      by_cases hx2 : (x.id == rid) = true
      · simp only [hx2, if_true]
        exact hbound x hx
      · simp only [Bool.not_eq_true] at hx2
        simp only [hx2, Bool.false_eq_true, if_false]
        exact hinv x hx

/-- Witness for C9 at a concrete store state. -/
theorem C9_updated_at_ge_started_at_witness :
    (∀ r ∈ (updateSyncProgress "store-3" "in_progress" 50 100 none 600 noUpdErrs
        dbRunning).records, r.started_at ≤ r.updated_at) ∧
    (∀ r ∈ ((getSyncProgress "store-3" 600 noGetErrs dbRunning).2).records,
        r.started_at ≤ r.updated_at) :=
  C9_updated_at_ge_started_at "store-3" "in_progress" 50 100 none 600 noUpdErrs
    noGetErrs dbRunning (by decide) (by decide)

/-- A store with no `sync_progress` table yet. -/
def dbNoTable : DB := { tableExists := false, records := [], nextId := 0, provisionCalls := 0 }

/-- C8 counterexample: `getSyncProgress` is an operation whose
table-existence check finds the table absent, yet it triggers no
provisioning attempt — the store (including the provisioning-RPC counter)
is left untouched and the call just reports not running. -/
theorem C8_no_provisioning_counterexample :
    dbNoTable.tableExists = false ∧
    (getSyncProgress "store-1" 0 noGetErrs dbNoTable).2 = dbNoTable ∧
    (getSyncProgress "store-1" 0 noGetErrs dbNoTable).2.provisionCalls = 0 ∧
    (getSyncProgress "store-1" 0 noGetErrs dbNoTable).1.success = true ∧
    (getSyncProgress "store-1" 0 noGetErrs dbNoTable).1.inProgress = false := by
  decide

/-- C8 (amended): only `updateSyncProgress` provisions — when its
table-existence check finds the table absent it always invokes the
provisioning RPC, and if provisioning fails it aborts without performing
its write; `getSyncProgress` on an absent table makes no provisioning
attempt and returns `success = true`, `inProgress = false` with the store
unchanged. -/
theorem C8_provisioning_on_absence (storeId status : String) (current total : Int)
    (notes : Option String) (now : Int) (e : UpdErrs) (eg : GetErrs) (db : DB)
    (habsent : db.tableExists = false) :
    (updateSyncProgress storeId status current total notes now e db).provisionCalls
      = db.provisionCalls + 1 ∧
    (e.createErr = true →
      updateSyncProgress storeId status current total notes now e db
        = { db with provisionCalls := db.provisionCalls + 1 }) ∧
    (eg.tableCheckErr = false →
      (getSyncProgress storeId now eg db).2 = db ∧
      (getSyncProgress storeId now eg db).1.success = true ∧
      (getSyncProgress storeId now eg db).1.inProgress = false) := by
  refine ⟨?_, fun hce => ?_, fun htc => ?_⟩
  · unfold updateSyncProgress
    rw [habsent]
    simp only [Bool.not_false, Bool.or_true, if_true]
    cases hce : e.createErr
    · simp only [Bool.false_eq_true, if_false]
      rw [updateSyncProgressBody_provisionCalls]
    · simp
  · unfold updateSyncProgress
    rw [habsent]
    simp [hce]
  · unfold getSyncProgress
    rw [habsent, htc]
    simp

/-- Witness for the amended C8 at a concrete input with a failing RPC. -/
theorem C8_provisioning_on_absence_witness :
    (updateSyncProgress "store-1" "in_progress" 0 0 none 0
        ⟨false, true, false, false, false⟩ dbNoTable).provisionCalls
      = dbNoTable.provisionCalls + 1 ∧
    ((⟨false, true, false, false, false⟩ : UpdErrs).createErr = true →
      updateSyncProgress "store-1" "in_progress" 0 0 none 0
          ⟨false, true, false, false, false⟩ dbNoTable
        = { dbNoTable with provisionCalls := dbNoTable.provisionCalls + 1 }) ∧
    (noGetErrs.tableCheckErr = false →
      (getSyncProgress "store-1" 0 noGetErrs dbNoTable).2 = dbNoTable ∧
      (getSyncProgress "store-1" 0 noGetErrs dbNoTable).1.success = true ∧
      (getSyncProgress "store-1" 0 noGetErrs dbNoTable).1.inProgress = false) :=
  C8_provisioning_on_absence "store-1" "in_progress" 0 0 none 0
    ⟨false, true, false, false, false⟩ noGetErrs dbNoTable rfl

end SalesPulse
